import Mathlib

/-!
Verification of the Reolink recording-filename codec of this repository:
the schema tables of src/plugins/reolink/src/types.ts and the decoder
module that defines `decodeHexToFlags` and `parseFileName`.

Modeling conventions:
* JS strings are modeled as `List Char`.
* JS numbers are modeled as exact integers with an explicit NaN:
  `JsNum := Option ℤ`, `none` playing the role of `NaN`.  (Every number
  the codec manipulates is an integer; IEEE-754 rounding only matters
  above 2^53 and is outside the model.)
* The JavaScript bitwise operators `&`, `<<`, `>>` operate on 32-bit
  integers in two-complement with the shift count taken modulo 32; this
  is modeled explicitly (`pat32`, `ofPat32`, `jsAnd`, `jsShl`, `jsSar`).
* `console.debug` and `console.log` output is modeled as a list of
  tagged log values (`LogMsg`) returned alongside the result.

The `spec...` definitions at the end of the definition section follow
the wording of spec section 4.2 and are the reference against which the
decoder is compared.
-/

set_option maxRecDepth 100000
set_option synthInstance.maxSize 512

namespace Reolink



/-! JavaScript string and number primitives. -/


/-- JS `String.prototype.split` with a single-character separator
(always returns at least one piece, `[[]]` on the empty string). -/
def splitOnChar (sep : Char) : List Char → List (List Char)
  | [] => [[]]
  | c :: rest =>
    match splitOnChar sep rest with
    | [] => [[]]
    | t :: ts => if c = sep then [] :: t :: ts else (c :: t) :: ts

/-- A JS number: an exact integer, or `none` for `NaN`. -/
abbrev JsNum := Option ℤ

/-- Value of a hexadecimal digit character, `none` if not one. -/
def hexDigitVal (c : Char) : Option ℕ :=
  if '0' ≤ c ∧ c ≤ '9' then some (c.toNat - '0'.toNat)
  else if 'a' ≤ c ∧ c ≤ 'f' then some (c.toNat - 'a'.toNat + 10)
  else if 'A' ≤ c ∧ c ≤ 'F' then some (c.toNat - 'A'.toNat + 10)
  else none

/-- Value of a binary digit character, `none` if not one. -/
def binDigitVal (c : Char) : Option ℕ :=
  if c = '0' then some 0 else if c = '1' then some 1 else none

/-- Value of a decimal digit character, `none` if not one. -/
def decDigitVal (c : Char) : Option ℕ :=
  if '0' ≤ c ∧ c ≤ '9' then some (c.toNat - '0'.toNat) else none

/-- Longest prefix of digit values accepted by `dv`. -/
def takeDigits (dv : Char → Option ℕ) : List Char → List ℕ
  | [] => []
  | c :: r =>
    match dv c with
    | some d => d :: takeDigits dv r
    | none => []

/-- Fold a digit list in the given radix. -/
def parseDigits (radix : ℕ) (ds : List ℕ) : ℤ :=
  ds.foldl (fun a d => (radix : ℤ) * a + (d : ℤ)) 0

/-- ECMAScript `parseInt(s, radix)`: skip leading whitespace, optional
sign, optionally a `0x`/`0X` marker (radix 16 only), then the longest
prefix of valid digits; `NaN` (`none`) when no digit was consumed. -/
def jsParseIntCore (radix : ℕ) (dv : Char → Option ℕ) (stripHexMark : Bool)
    (s : List Char) : JsNum :=
  let s1 := s.dropWhile (fun c => c.isWhitespace)
  let sign : ℤ := match s1 with | '-' :: _ => -1 | _ => 1
  let s2 := match s1 with | '-' :: r => r | '+' :: r => r | _ => s1
  let s3 :=
    if stripHexMark then
      match s2 with
      | '0' :: 'x' :: r => r
      | '0' :: 'X' :: r => r
      | _ => s2
    else s2
  let ds := takeDigits dv s3
  if ds.isEmpty then none else some (sign * parseDigits radix ds)

/-- JS `parseInt(s, 16)`. -/
def jsParseInt16 (s : List Char) : JsNum := jsParseIntCore 16 hexDigitVal true s

/-- JS `parseInt(s, 2)`. -/
def jsParseInt2 (s : List Char) : JsNum := jsParseIntCore 2 binDigitVal false s

/-- JS `parseInt(s)` with the default radix 10 (only ever applied to a
single character here, so the `0x` auto-detection cannot trigger). -/
def jsParseInt10 (s : List Char) : JsNum := jsParseIntCore 10 decDigitVal false s

/-- Little-endian binary digits of `n`; `fuel` bounds the recursion and
every call site passes a bound that is at least the bit length of `n`,
so the digit list is always complete. -/
def bitsLEAux : ℕ → ℕ → List ℕ
  | 0, _ => []
  | fuel + 1, n => if n = 0 then [] else n % 2 :: bitsLEAux fuel (n / 2)

/-- Character of a binary digit. -/
def bitChar (d : ℕ) : Char := if d = 1 then '1' else '0'

/-- JS `v.toString(2)`: `"NaN"` for NaN, a `-`-prefixed magnitude for
negative integers, plain binary digits otherwise. -/
def jsToStringBase2 (fuel : ℕ) (v : JsNum) : List Char :=
  match v with
  | none => ['N', 'a', 'N']
  | some z =>
    if z < 0 then '-' :: natBinChars z.natAbs else natBinChars z.toNat
where
  natBinChars (n : ℕ) : List Char :=
    if n = 0 then ['0'] else ((bitsLEAux fuel n).reverse).map bitChar

/-- JS `s.padStart(k, '0')`. -/
def padStartZeros (k : ℕ) (l : List Char) : List Char :=
  List.replicate (k - l.length) '0' ++ l

/-- The 32-bit pattern (ECMAScript `ToUint32`) of a JS number; `NaN`
maps to `0`. -/
def pat32 (v : JsNum) : ℕ :=
  match v with
  | none => 0
  | some z => (z % (2 ^ 32 : ℤ)).toNat

/-- Reinterpret a 32-bit pattern as a signed (two-complement) value. -/
def ofPat32 (u : ℕ) : ℤ := if u < 2 ^ 31 then (u : ℤ) else (u : ℤ) - 2 ^ 32

/-- Bitwise AND of the low `fuel` bits of two naturals. -/
def landAux : ℕ → ℕ → ℕ → ℕ
  | 0, _, _ => 0
  | fuel + 1, a, b => a % 2 * (b % 2) + 2 * landAux fuel (a / 2) (b / 2)

/-- JS `a & b`: `ToInt32` both operands, 32-bit bitwise AND. -/
def jsAnd (a b : JsNum) : JsNum := some (ofPat32 (landAux 32 (pat32 a) (pat32 b)))

/-- JS `a << b`: shift count `ToUint32(b) mod 32`, result wraps to int32. -/
def jsShl (a b : JsNum) : JsNum :=
  some (ofPat32 ((pat32 a <<< (pat32 b % 32)) % 2 ^ 32))

/-- JS `a >> b`: sign-propagating (arithmetic) right shift on int32. -/
def jsSar (a b : JsNum) : JsNum :=
  let u := pat32 a
  let s := pat32 b % 32
  some (if u < 2 ^ 31 then ((u / 2 ^ s : ℕ) : ℤ) else ((u / 2 ^ s : ℕ) : ℤ) - 2 ^ (32 - s))

/-- JS `a - b` on exact integer numbers; NaN propagates. -/
def jsSub (a b : JsNum) : JsNum :=
  match a, b with
  | some x, some y => some (x - y)
  | _, _ => none


/-! Schema registry, transcribed from src/plugins/reolink/src/types.ts.
Each entry is `(flag, bitPosition, bitSize)`; list order is the object
literal insertion order, which is what `Object.entries` iterates. -/


/-- Table `FLAGS_CAM_V2` from types.ts. -/
def FLAGS_CAM_V2 : List (String × ℕ × ℕ) :=
  [("resolution_index", 0, 7), ("tv_system", 7, 1), ("framerate", 8, 7),
   ("audio_index", 15, 2), ("ai_pd", 17, 1), ("ai_fd", 18, 1), ("ai_vd", 19, 1),
   ("ai_ad", 20, 1), ("encoder_type_index", 21, 2), ("is_schedule_record", 23, 1),
   ("is_motion_record", 24, 1), ("is_rf_record", 25, 1), ("is_doorbell_record", 26, 1),
   ("ai_other", 27, 1)]

/-- Table `FLAGS_HUB_V0` from types.ts. -/
def FLAGS_HUB_V0 : List (String × ℕ × ℕ) :=
  [("resolution_index", 0, 7), ("tv_system", 7, 1), ("framerate", 8, 7),
   ("audio_index", 15, 2), ("ai_pd", 17, 1), ("ai_fd", 18, 1), ("ai_vd", 19, 1),
   ("ai_ad", 20, 1), ("encoder_type_index", 21, 2), ("is_schedule_record", 23, 1),
   ("is_motion_record", 24, 1), ("is_rf_record", 25, 1), ("is_doorbell_record", 26, 1),
   ("is_ai_other_record", 27, 1), ("picture_layout_index", 28, 7),
   ("package_delivered", 35, 1), ("package_takenaway", 36, 1)]

/-- Table `FLAGS_HUB_V1`: the spread of `FLAGS_HUB_V0` with `package_event: [37, 1]` appended. -/
def FLAGS_HUB_V1 : List (String × ℕ × ℕ) := FLAGS_HUB_V0 ++ [("package_event", 37, 1)]

/-- The hub version-2 table inlined in `FLAGS_MAPPING`. -/
def FLAGS_HUB_V2 : List (String × ℕ × ℕ) :=
  [("resolution_index", 0, 7), ("tv_system", 7, 1), ("framerate", 8, 7),
   ("audio_index", 15, 2), ("ai_pd", 17, 1), ("ai_fd", 18, 1), ("ai_vd", 19, 1),
   ("ai_ad", 20, 1), ("ai_other", 21, 2), ("encoder_type_index", 23, 1),
   ("is_schedule_record", 24, 1), ("is_motion_record", 25, 1), ("is_rf_record", 26, 1),
   ("is_doorbell_record", 27, 1), ("picture_layout_index", 28, 7),
   ("package_delivered", 35, 1), ("package_takenaway", 36, 1), ("package_event", 37, 1),
   ("upload_flag", 38, 1)]

/-- Lookup `FLAGS_MAPPING[devType][version]` (property lookup; a `NaN` or
unknown version key is absent). -/
def FLAGS_MAPPING (devType : String) (version : JsNum) :
    Option (List (String × ℕ × ℕ)) :=
  if devType = "cam" then
    match version with
    | some 2 => some FLAGS_CAM_V2
    | some 3 => some FLAGS_CAM_V2
    | some 4 => some FLAGS_CAM_V2
    | some 9 => some FLAGS_CAM_V2
    | _ => none
  else if devType = "hub" then
    match version with
    | some 0 => some FLAGS_HUB_V0
    | some 1 => some FLAGS_HUB_V1
    | some 2 => some FLAGS_HUB_V2
    | _ => none
  else none

/-- Lookup `FLAGS_LENGTH[devType][version]` (expected hex-payload length). -/
def FLAGS_LENGTH (devType : String) (version : JsNum) : Option ℕ :=
  if devType = "cam" then
    match version with
    | some 2 => some 7
    | some 3 => some 7
    | some 4 => some 9
    | some 9 => some 14
    | _ => none
  else if devType = "hub" then
    match version with
    | some 2 => some 10
    | _ => none
  else none

/-- Keys `Object.keys(FLAGS_MAPPING[devType])` as numbers, in JS enumeration
order (integer-like keys ascend). -/
def versionKeys (devType : String) : List ℤ :=
  if devType = "cam" then [2, 3, 4, 9]
  else if devType = "hub" then [0, 1, 2]
  else []

/-- JS `Math.max(...l)`; call sites only pass the (nonempty, nonnegative)
version-key lists. -/
def jsMathMax (l : List ℤ) : ℤ := l.foldl max 0

/-- One field extraction of `decodeHexToFlags` (lines 9-11 of the
decoder): `mask = ((1 << bitSize) - 1) << bitPosition;
flagValRev = (hexIntRev & mask) >> bitPosition;` then reverse the
`bitSize`-padded binary rendering of `flagValRev` and re-parse it. -/
def decodeField (hexIntRev : JsNum) (bitPosition bitSize : ℕ) : JsNum :=
  let mask := jsShl (jsSub (jsShl (some 1) (some (bitSize : ℤ))) (some 1)) (some (bitPosition : ℤ))
  let flagValRev := jsSar (jsAnd hexIntRev mask) (some (bitPosition : ℤ))
  jsParseInt2 ((padStartZeros bitSize (jsToStringBase2 64 flagValRev)).reverse)

/-- Function `decodeHexToFlags(hexValue, version, devType)` (decoder lines 3-15).
The `hexIntRev` fuel `4 * hexValue.length` dominates the bit length of
`hexInt` since the parsed magnitude is below `16 ^ hexValue.length`.
(JS would throw on an unregistered `(devType, version)`; every call
site guarantees registration, and the model returns `[]` there.) -/
def decodeHexToFlags (hexValue : List Char) (version : JsNum) (devType : String) :
    List (String × JsNum) :=
  let hexInt := jsParseInt16 hexValue
  let hexIntRev := jsParseInt2
    ((padStartZeros (hexValue.length * 4) (jsToStringBase2 (4 * hexValue.length) hexInt)).reverse)
  match FLAGS_MAPPING devType version with
  | none => []
  | some flags => flags.map fun f => (f.1, decodeField hexIntRev f.2.1 f.2.2)

/-- Tagged model of the `console.debug` / `console.log` lines of
`parseFileName`, in source order of the call sites. -/
inductive LogMsg where
  | noVersion (fileName : List Char)
  | unknownLength (fileName : List Char)
  | unknownVersion (fileName : List Char) (version : JsNum) (hexLen : ℕ) (newVersion : ℤ)
  | badHexLength (fileName : List Char) (version : JsNum) (hexLen expected : ℕ)
  | decoded (hexValue : List Char) (version : JsNum) (devType : String)
      (flagValues : List (String × JsNum))

/-- Lines 23-25 of `parseFileName`: drop the extension, keep the text
after the final path separator. -/
def stemName (fileName : List Char) : List Char :=
  let pathName := (splitOnChar '/'
    (List.intercalate ['.'] (splitOnChar '.' fileName).dropLast)).getLastD []
  (splitOnChar '/' pathName).getLastD []

/-- The underscore tokens of the stem (`name.split('_')`). -/
def nameTokens (fileName : List Char) : List (List Char) :=
  splitOnChar '_' (stemName fileName)

/-- Lines 33-56: device type and token extraction by token count; yields
`(devType, startDate, startTime, endTime, hexValue, fileSize)`. -/
def tokenizeName (split : List (List Char)) :
    Option (String × List Char × List Char × List Char × List Char × List Char) :=
  if split.length = 6 then
    some ("cam", split.getD 1 [], split.getD 2 [], split.getD 3 [],
      split.getD 4 [], split.getD 5 [])
  else if split.length = 9 then
    some ("hub", split.getD 1 [], split.getD 2 [], split.getD 3 [],
      split.getD 7 [], split.getD 8 [])
  else none

/-- Lines 58-62: if `(devType, version)` is not registered, fall back to
`Math.max` of the registered versions; the Bool records whether the
fallback warning fired. -/
def resolveVersion (devType : String) (version : JsNum) : JsNum × Bool :=
  if (FLAGS_MAPPING devType version).isSome then (version, false)
  else (some (jsMathMax (versionKeys devType)), true)

/-- Object lookup `flagValues[k]` on the decoded-field list. -/
def lookupFlag (k : String) : List (String × JsNum) → Option JsNum
  | [] => none
  | (k', v) :: r => if k' = k then some v else lookupFlag k r

/-- JS truthiness of a possibly-missing field value (`undefined`, `NaN`
and `0` are falsy). -/
def jsTruthy (v : Option JsNum) : Bool :=
  match v with
  | some (some z) => z != 0
  | _ => false

/-- Lines 71-87: the detection-class pushes, in source order, with the
`motion` fallback when nothing was pushed. -/
def detectionClassesOf (flagValues : List (String × JsNum)) : List String :=
  let detectionClasses :=
    (if jsTruthy (lookupFlag "ai_pd" flagValues) then ["person"] else []) ++
    (if jsTruthy (lookupFlag "ai_vd" flagValues) then ["vehicle"] else []) ++
    (if jsTruthy (lookupFlag "ai_ad" flagValues) then ["animal"] else []) ++
    (if jsTruthy (lookupFlag "is_motion_record" flagValues) then ["motion"] else []) ++
    (if jsTruthy (lookupFlag "package_event" flagValues) then ["package"] else [])
  if detectionClasses.isEmpty then ["motion"] else detectionClasses

/-- Function `parseFileName(fileName, console)` (lines 17-96).  `.1` is the
return value (`none` models `null`, `some classes` models the returned
`{ detectionClasses }` record); `.2` models the console output. -/
def parseFileName (fileName : List Char) : Option (List String) × List LogMsg :=
  let split := nameTokens fileName
  let tok0 := split.headD []
  if ¬ (List.isPrefixOf ['R', 'e', 'c'] tok0 ∧ tok0.length = 6) then
    (none, [LogMsg.noVersion fileName])
  else
    let version := jsParseInt10 [tok0.getD 5 ' ']
    match tokenizeName split with
    | none => (none, [LogMsg.unknownLength fileName])
    | some (devType, _startDate, _startTime, _endTime, hexValue, _fileSize) =>
      let resolved := resolveVersion devType version
      let log1 :=
        if resolved.2 then
          [LogMsg.unknownVersion fileName version hexValue.length
            (jsMathMax (versionKeys devType))]
        else []
      let version2 := resolved.1
      let expected := (FLAGS_LENGTH devType version2).getD 0
      let log2 :=
        if hexValue.length ≠ expected then
          [LogMsg.badHexLength fileName version2 hexValue.length expected]
        else []
      let flagValues := decodeHexToFlags hexValue version2 devType
      (some (detectionClassesOf flagValues),
        log1 ++ log2 ++ [LogMsg.decoded hexValue version2 devType flagValues])


/-! Reference (spec-side) definitions, and the decomposition used to
analyse one field extraction. -/


/-- Reverse of the `m`-bit zero-padded binary rendering of `n`,
re-parsed as base 2 (the reversal primitive of spec section 4.2). -/
def revBits : ℕ → ℕ → ℕ
  | 0, _ => 0
  | m + 1, n => n % 2 * 2 ^ m + revBits m (n / 2)

/-- Numeric value of a (valid) hexadecimal digit string. -/
def hexToNat (l : List Char) : ℕ :=
  l.foldl (fun a c => 16 * a + ((hexDigitVal c).getD 0)) 0

/-- The reference double-reversal field value of spec section 4.2:
reverse the whole `4 * len`-bit payload, extract
`[bitOffset, bitOffset + bitWidth)` by mask and shift, then reverse the
`bitWidth`-bit rendering of the segment. -/
def specFieldValue (len raw bitOffset bitWidth : ℕ) : ℕ :=
  revBits bitWidth (revBits (4 * len) raw / 2 ^ bitOffset % 2 ^ bitWidth)

/-- The naive no-reversal extraction the spec contrasts against. -/
def specNoReversalValue (raw bitOffset bitWidth : ℕ) : ℕ :=
  raw / 2 ^ bitOffset % 2 ^ bitWidth

/-- The naive field-level-only single-reversal extraction the spec
contrasts against (the whole-payload reversal is skipped). -/
def specSingleReversalValue (raw bitOffset bitWidth : ℕ) : ℕ :=
  revBits bitWidth (raw / 2 ^ bitOffset % 2 ^ bitWidth)

/-- Width of the surviving (below bit 32) part of the mask of a field. -/
def kOf (p w : ℕ) : ℕ := min (p % 32 + w) 32 - p % 32

/-- The mask expression of `decodeField`. -/
def maskOf (p w : ℕ) : JsNum :=
  jsShl (jsSub (jsShl (some 1) (some (w : ℤ))) (some 1)) (some (p : ℤ))

/-- The signed value `(hexIntRev & mask) >> bitPosition` takes when the
surviving field bits of the pattern are `s`. -/
def sarPattern (p' s : ℕ) : ℤ :=
  if s * 2 ^ p' < 2 ^ 31 then (s : ℤ) else (s : ℤ) - 2 ^ (32 - p')

/-- The final string stage of `decodeField` (render, pad, reverse, parse). -/
def fieldTail (bitSize : ℕ) (z : ℤ) : JsNum :=
  jsParseInt2 ((padStartZeros bitSize (jsToStringBase2 64 (some z))).reverse)

/-- Bounds check on a decoded field value. -/
def rangeChk (w : ℕ) (v : JsNum) : Bool :=
  match v with
  | some z => decide (0 ≤ z ∧ z < 2 ^ w)
  | none => false

/-- A decoded field entry carries a value within the declared width of its field. -/
def goodField (x : JsNum) (f : String × ℕ × ℕ) : Prop :=
  ∃ v : ℤ, decodeField x f.2.1 f.2.2 = some v ∧ 0 ≤ v ∧ v < 2 ^ f.2.2


/-! Supporting lemmas. -/


theorem testBit_landAux : ∀ (f a b i : ℕ),
    (landAux f a b).testBit i = (a.testBit i && b.testBit i && decide (i < f)) := by
  intro f
  induction f with
  | zero => intro a b i; simp [landAux, Nat.zero_testBit]
  | succ f ih =>
    intro a b i
    have hd : a % 2 * (b % 2) ≤ 1 := by
      have h1 : a % 2 ≤ 1 := by omega
      have h2 : b % 2 ≤ 1 := by omega
      calc a % 2 * (b % 2) ≤ 1 * 1 := Nat.mul_le_mul h1 h2
        _ = 1 := rfl
    cases i with
    | zero =>
      rw [landAux, Nat.testBit_zero, Nat.testBit_zero, Nat.testBit_zero]
      have ha := Nat.mod_two_eq_zero_or_one a
      have hb := Nat.mod_two_eq_zero_or_one b
      rcases ha with h1 | h1 <;> rcases hb with h2 | h2 <;>
        simp [h1, h2, Nat.add_mul_mod_self_left]
    | succ i =>
      rw [landAux, Nat.testBit_succ]
      have hq : (a % 2 * (b % 2) + 2 * landAux f (a / 2) (b / 2)) / 2 =
          landAux f (a / 2) (b / 2) := by omega
      rw [hq, ih, ← Nat.testBit_succ, ← Nat.testBit_succ]
      have : (i < f) = (i + 1 < f + 1) := by simp
      simp [Nat.succ_lt_succ_iff]

theorem landAux_extract (u p k : ℕ) (hpk : p + k ≤ 32) :
    landAux 32 u (2 ^ (p + k) - 2 ^ p) = u / 2 ^ p % 2 ^ k * 2 ^ p := by
  apply Nat.eq_of_testBit_eq
  intro i
  rw [testBit_landAux]
  have hmask : (2 : ℕ) ^ (p + k) - 2 ^ p = (2 ^ k - 1) <<< p := by
    rw [Nat.shiftLeft_eq, Nat.sub_mul, one_mul, ← pow_add, add_comm k p]
  rw [hmask, Nat.testBit_shiftLeft, Nat.testBit_two_pow_sub_one]
  have hrhs : u / 2 ^ p % 2 ^ k * 2 ^ p = ((u >>> p) % 2 ^ k) <<< p := by
    rw [Nat.shiftLeft_eq, Nat.shiftRight_eq_div_pow]
  rw [hrhs, Nat.testBit_shiftLeft, Nat.testBit_mod_two_pow, Nat.testBit_shiftRight]
  by_cases hip : p ≤ i
  · have hpi : p + (i - p) = i := by omega
    rw [hpi]
    by_cases hik : i - p < k
    · have h32 : i < 32 := by omega
      simp [hip, hik, h32, ge_iff_le]
    · simp [hik]
  · simp [ge_iff_le, hip]

theorem pat32_lt (x : JsNum) : pat32 x < 2 ^ 32 := by
  cases x with
  | none => simp [pat32]
  | some z =>
    simp only [pat32]
    have h1 : 0 ≤ z % (2 ^ 32 : ℤ) := Int.emod_nonneg z (by norm_num)
    have h2 : z % (2 ^ 32 : ℤ) < 2 ^ 32 := Int.emod_lt_of_pos z (by norm_num)
    have e : ((2 : ℤ) ^ 32) = 4294967296 := by norm_num
    rw [e] at h1 h2
    have e2 : (2 : ℕ) ^ 32 = 4294967296 := by norm_num
    omega

theorem pat32_ofPat32 (A : ℕ) (h : A < 2 ^ 32) : pat32 (some (ofPat32 A)) = A := by
  simp only [pat32, ofPat32]
  have e : ((2 : ℤ) ^ 32) = 4294967296 := by norm_num
  have e31 : ((2 : ℤ) ^ 31) = 2147483648 := by norm_num
  have e2 : (2 : ℕ) ^ 32 = 4294967296 := by norm_num
  rw [e2] at h
  split <;> rename_i hlt <;> rw [e] <;> omega

theorem decodeField_eq_fieldTail (x : JsNum) (p w : ℕ)
    (hp : p < 2 ^ 32)
    (hk : p % 32 + kOf p w ≤ 32)
    (hmask : pat32 (maskOf p w) = 2 ^ (p % 32 + kOf p w) - 2 ^ (p % 32)) :
    decodeField x p w =
      fieldTail w (sarPattern (p % 32) (pat32 x / 2 ^ (p % 32) % 2 ^ kOf p w)) := by
  have h2 : (0 : ℕ) < 2 := by norm_num
  set p' := p % 32 with hp'
  set k := kOf p w with hkdef
  set s := pat32 x / 2 ^ p' % 2 ^ k with hs
  have hsk : s < 2 ^ k := Nat.mod_lt _ (pow_pos h2 k)
  have hA : s * 2 ^ p' < 2 ^ 32 := by
    have h1 : s * 2 ^ p' < 2 ^ k * 2 ^ p' :=
      (Nat.mul_lt_mul_right (pow_pos h2 p')).mpr hsk
    have h2' : (2 : ℕ) ^ k * 2 ^ p' = 2 ^ (p' + k) := by rw [← pow_add, add_comm]
    have h3 : (2 : ℕ) ^ (p' + k) ≤ 2 ^ 32 := Nat.pow_le_pow_right (by norm_num) hk
    omega
  have hland : landAux 32 (pat32 x) (pat32 (maskOf p w)) = s * 2 ^ p' := by
    rw [hmask, landAux_extract (pat32 x) p' k hk]
  have hpatp : pat32 (some (p : ℤ)) = p := by
    simp only [pat32]
    have h0 : (0 : ℤ) ≤ (p : ℤ) := Int.natCast_nonneg p
    have h1 : (p : ℤ) < 2 ^ 32 := by exact_mod_cast hp
    rw [Int.emod_eq_of_lt h0 h1]
    omega
  have hdiv : s * 2 ^ p' / 2 ^ p' = s := Nat.mul_div_cancel s (pow_pos h2 p')
  have hand : jsAnd x (maskOf p w) = some (ofPat32 (s * 2 ^ p')) := by
    simp only [jsAnd, hland]
  have hsar : jsSar (some (ofPat32 (s * 2 ^ p'))) (some (p : ℤ)) = some (sarPattern p' s) := by
    simp only [jsSar, pat32_ofPat32 _ hA, hpatp, ← hp', hdiv, sarPattern]
  show jsParseInt2 ((padStartZeros w (jsToStringBase2 64
      (jsSar (jsAnd x (maskOf p w)) (some (p : ℤ))))).reverse) = _
  rw [hand, hsar]
  rfl

theorem decodeField_ok (x : JsNum) (p w : ℕ)
    (hp : p < 2 ^ 32)
    (hk : p % 32 + kOf p w ≤ 32)
    (hmask : pat32 (maskOf p w) = 2 ^ (p % 32 + kOf p w) - 2 ^ (p % 32))
    (hall : ∀ s, s < 2 ^ kOf p w → rangeChk w (fieldTail w (sarPattern (p % 32) s)) = true) :
    ∃ v : ℤ, decodeField x p w = some v ∧ 0 ≤ v ∧ v < 2 ^ w := by
  rw [decodeField_eq_fieldTail x p w hp hk hmask]
  set s := pat32 x / 2 ^ (p % 32) % 2 ^ kOf p w with hs
  have hsk : s < 2 ^ kOf p w := Nat.mod_lt _ (pow_pos (by norm_num) _)
  have h := hall s hsk
  revert h
  unfold rangeChk
  cases fieldTail w (sarPattern (p % 32) s) with
  | none => intro h; cases h
  | some z =>
    intro h
    exact ⟨z, rfl, of_decide_eq_true h⟩

theorem fieldOk_0_7 (x : JsNum) : ∃ v : ℤ, decodeField x 0 7 = some v ∧ 0 ≤ v ∧ v < 2 ^ 7 :=
  decodeField_ok x 0 7 (by decide) (by decide) (by decide) (by decide)

theorem fieldOk_7_1 (x : JsNum) : ∃ v : ℤ, decodeField x 7 1 = some v ∧ 0 ≤ v ∧ v < 2 ^ 1 :=
  decodeField_ok x 7 1 (by decide) (by decide) (by decide) (by decide)

theorem fieldOk_8_7 (x : JsNum) : ∃ v : ℤ, decodeField x 8 7 = some v ∧ 0 ≤ v ∧ v < 2 ^ 7 :=
  decodeField_ok x 8 7 (by decide) (by decide) (by decide) (by decide)

theorem fieldOk_15_2 (x : JsNum) : ∃ v : ℤ, decodeField x 15 2 = some v ∧ 0 ≤ v ∧ v < 2 ^ 2 :=
  decodeField_ok x 15 2 (by decide) (by decide) (by decide) (by decide)

theorem fieldOk_17_1 (x : JsNum) : ∃ v : ℤ, decodeField x 17 1 = some v ∧ 0 ≤ v ∧ v < 2 ^ 1 :=
  decodeField_ok x 17 1 (by decide) (by decide) (by decide) (by decide)

theorem fieldOk_18_1 (x : JsNum) : ∃ v : ℤ, decodeField x 18 1 = some v ∧ 0 ≤ v ∧ v < 2 ^ 1 :=
  decodeField_ok x 18 1 (by decide) (by decide) (by decide) (by decide)

theorem fieldOk_19_1 (x : JsNum) : ∃ v : ℤ, decodeField x 19 1 = some v ∧ 0 ≤ v ∧ v < 2 ^ 1 :=
  decodeField_ok x 19 1 (by decide) (by decide) (by decide) (by decide)

theorem fieldOk_20_1 (x : JsNum) : ∃ v : ℤ, decodeField x 20 1 = some v ∧ 0 ≤ v ∧ v < 2 ^ 1 :=
  decodeField_ok x 20 1 (by decide) (by decide) (by decide) (by decide)

theorem fieldOk_21_2 (x : JsNum) : ∃ v : ℤ, decodeField x 21 2 = some v ∧ 0 ≤ v ∧ v < 2 ^ 2 :=
  decodeField_ok x 21 2 (by decide) (by decide) (by decide) (by decide)

theorem fieldOk_23_1 (x : JsNum) : ∃ v : ℤ, decodeField x 23 1 = some v ∧ 0 ≤ v ∧ v < 2 ^ 1 :=
  decodeField_ok x 23 1 (by decide) (by decide) (by decide) (by decide)

theorem fieldOk_24_1 (x : JsNum) : ∃ v : ℤ, decodeField x 24 1 = some v ∧ 0 ≤ v ∧ v < 2 ^ 1 :=
  decodeField_ok x 24 1 (by decide) (by decide) (by decide) (by decide)

theorem fieldOk_25_1 (x : JsNum) : ∃ v : ℤ, decodeField x 25 1 = some v ∧ 0 ≤ v ∧ v < 2 ^ 1 :=
  decodeField_ok x 25 1 (by decide) (by decide) (by decide) (by decide)

theorem fieldOk_26_1 (x : JsNum) : ∃ v : ℤ, decodeField x 26 1 = some v ∧ 0 ≤ v ∧ v < 2 ^ 1 :=
  decodeField_ok x 26 1 (by decide) (by decide) (by decide) (by decide)

theorem fieldOk_27_1 (x : JsNum) : ∃ v : ℤ, decodeField x 27 1 = some v ∧ 0 ≤ v ∧ v < 2 ^ 1 :=
  decodeField_ok x 27 1 (by decide) (by decide) (by decide) (by decide)

theorem fieldOk_28_7 (x : JsNum) : ∃ v : ℤ, decodeField x 28 7 = some v ∧ 0 ≤ v ∧ v < 2 ^ 7 :=
  decodeField_ok x 28 7 (by decide) (by decide) (by decide) (by decide)

theorem fieldOk_35_1 (x : JsNum) : ∃ v : ℤ, decodeField x 35 1 = some v ∧ 0 ≤ v ∧ v < 2 ^ 1 :=
  decodeField_ok x 35 1 (by decide) (by decide) (by decide) (by decide)

theorem fieldOk_36_1 (x : JsNum) : ∃ v : ℤ, decodeField x 36 1 = some v ∧ 0 ≤ v ∧ v < 2 ^ 1 :=
  decodeField_ok x 36 1 (by decide) (by decide) (by decide) (by decide)

theorem fieldOk_37_1 (x : JsNum) : ∃ v : ℤ, decodeField x 37 1 = some v ∧ 0 ≤ v ∧ v < 2 ^ 1 :=
  decodeField_ok x 37 1 (by decide) (by decide) (by decide) (by decide)

theorem fieldOk_38_1 (x : JsNum) : ∃ v : ℤ, decodeField x 38 1 = some v ∧ 0 ≤ v ∧ v < 2 ^ 1 :=
  decodeField_ok x 38 1 (by decide) (by decide) (by decide) (by decide)

theorem goodField_cam_v2 (x : JsNum) : ∀ f ∈ FLAGS_CAM_V2, goodField x f := by
  intro f hf
  simp only [FLAGS_CAM_V2, List.mem_cons, List.not_mem_nil, or_false] at hf
  rcases hf with rfl | rfl | rfl | rfl | rfl | rfl | rfl | rfl | rfl | rfl | rfl | rfl | rfl | rfl
  · exact fieldOk_0_7 x
  · exact fieldOk_7_1 x
  · exact fieldOk_8_7 x
  · exact fieldOk_15_2 x
  · exact fieldOk_17_1 x
  · exact fieldOk_18_1 x
  · exact fieldOk_19_1 x
  · exact fieldOk_20_1 x
  · exact fieldOk_21_2 x
  · exact fieldOk_23_1 x
  · exact fieldOk_24_1 x
  · exact fieldOk_25_1 x
  · exact fieldOk_26_1 x
  · exact fieldOk_27_1 x

theorem goodField_hub_v0 (x : JsNum) : ∀ f ∈ FLAGS_HUB_V0, goodField x f := by
  intro f hf
  simp only [FLAGS_HUB_V0, List.mem_cons, List.not_mem_nil, or_false] at hf
  rcases hf with rfl | rfl | rfl | rfl | rfl | rfl | rfl | rfl | rfl | rfl | rfl | rfl | rfl | rfl | rfl | rfl | rfl
  · exact fieldOk_0_7 x
  · exact fieldOk_7_1 x
  · exact fieldOk_8_7 x
  · exact fieldOk_15_2 x
  · exact fieldOk_17_1 x
  · exact fieldOk_18_1 x
  · exact fieldOk_19_1 x
  · exact fieldOk_20_1 x
  · exact fieldOk_21_2 x
  · exact fieldOk_23_1 x
  · exact fieldOk_24_1 x
  · exact fieldOk_25_1 x
  · exact fieldOk_26_1 x
  · exact fieldOk_27_1 x
  · exact fieldOk_28_7 x
  · exact fieldOk_35_1 x
  · exact fieldOk_36_1 x

theorem goodField_hub_v1 (x : JsNum) : ∀ f ∈ FLAGS_HUB_V1, goodField x f := by
  intro f hf
  have h : f ∈ FLAGS_HUB_V0 ∨ f = ("package_event", 37, 1) := by
    simpa [FLAGS_HUB_V1, List.mem_append] using hf
  rcases h with h | rfl
  · exact goodField_hub_v0 x f h
  · exact fieldOk_37_1 x

theorem goodField_hub_v2 (x : JsNum) : ∀ f ∈ FLAGS_HUB_V2, goodField x f := by
  intro f hf
  simp only [FLAGS_HUB_V2, List.mem_cons, List.not_mem_nil, or_false] at hf
  rcases hf with rfl | rfl | rfl | rfl | rfl | rfl | rfl | rfl | rfl | rfl | rfl | rfl | rfl | rfl | rfl | rfl | rfl | rfl | rfl
  · exact fieldOk_0_7 x
  · exact fieldOk_7_1 x
  · exact fieldOk_8_7 x
  · exact fieldOk_15_2 x
  · exact fieldOk_17_1 x
  · exact fieldOk_18_1 x
  · exact fieldOk_19_1 x
  · exact fieldOk_20_1 x
  · exact fieldOk_21_2 x
  · exact fieldOk_23_1 x
  · exact fieldOk_24_1 x
  · exact fieldOk_25_1 x
  · exact fieldOk_26_1 x
  · exact fieldOk_27_1 x
  · exact fieldOk_28_7 x
  · exact fieldOk_35_1 x
  · exact fieldOk_36_1 x
  · exact fieldOk_37_1 x
  · exact fieldOk_38_1 x

theorem registered_tables (devType : String) (version : JsNum)
    (flags : List (String × ℕ × ℕ)) (h : FLAGS_MAPPING devType version = some flags) :
    flags = FLAGS_CAM_V2 ∨ flags = FLAGS_HUB_V0 ∨ flags = FLAGS_HUB_V1 ∨ flags = FLAGS_HUB_V2 := by
  unfold FLAGS_MAPPING at h
  split at h
  · split at h <;> first
      | (injection h with h; subst h; simp)
      | exact Option.noConfusion h
  · split at h
    · split at h <;> first
        | (injection h with h; subst h; simp)
        | exact Option.noConfusion h
    · exact Option.noConfusion h

theorem decode_forall2 (x : JsNum) (flags : List (String × ℕ × ℕ))
    (hgood : ∀ f ∈ flags, goodField x f) :
    List.Forall₂ (fun e f => e.1 = f.1 ∧ ∃ v : ℤ, e.2 = some v ∧ 0 ≤ v ∧ v < 2 ^ f.2.2)
      (flags.map fun f => (f.1, decodeField x f.2.1 f.2.2)) flags := by
  induction flags with
  | nil => rw [List.map_nil]; exact List.Forall₂.nil
  | cons a t ih =>
    rw [List.map_cons]
    refine List.Forall₂.cons ?_ (ih fun b hb => hgood b (List.mem_cons_of_mem a hb))
    have h2 := hgood a (List.mem_cons_self a t)
    unfold goodField at h2
    dsimp only
    exact ⟨rfl, h2⟩

/-- Helper for C3: the token-count branch fails exactly on counts other
than 6 and 9. -/
theorem tokenizeName_eq_none_iff (split : List (List Char)) :
    tokenizeName split = none ↔ split.length ≠ 6 ∧ split.length ≠ 9 := by
  unfold tokenizeName
  split_ifs <;> simp_all

/-- Helper for C10: splitting on a character that does not occur
returns the whole string as the single piece. -/
theorem splitOnChar_not_mem (sep : Char) (l : List Char) (h : sep ∉ l) :
    splitOnChar sep l = [l] := by
  induction l with
  | nil => rfl
  | cons c r ih =>
    have hc : ¬ (c = sep) := fun e => h (e ▸ List.mem_cons_self c r)
    have hr : sep ∉ r := fun m => h (List.mem_cons_of_mem c m)
    simp [splitOnChar, ih hr, hc]

/-- Helper for C10: with no '.' in the input, the extension-stripping
step of line 23 leaves an empty stem. -/
theorem stemName_no_dot (fileName : List Char) (h : '.' ∉ fileName) :
    stemName fileName = [] := by
  unfold stemName
  rw [splitOnChar_not_mem '.' fileName h]
  rfl


/-! Claim theorems. -/


/-- Claim C1: the spec is right and the code is wrong.  For the hub v2 schema
field `package_delivered` (bit offset 35, width 1) and the hexadecimal
payload "0000000010", the decoder returns 0 although the reference
double-reversal computation of spec section 4.2 yields 1: the
JavaScript bitwise operators are 32-bit, so `1 << 35` is `8` and
`ToInt32` discards bit 35 of the reversed payload. -/
theorem bit35_code_vs_reference :
    lookupFlag "package_delivered" (decodeHexToFlags "0000000010".data (some 2) "hub") =
      some (some 0) ∧
    specFieldValue 10 (hexToNat "0000000010".data) 35 1 = 1 := by decide

/-- Claim C2: pinned regression vector: hex payload "6D28808" with the camera
v2 schema decodes ai_pd, ai_fd, ai_vd, ai_ad to exactly the reference
double-reversal values (all 0 here); the whole-payload reversal indeed
maps bit i to bit 4·len−1−i; and a naive no-reversal or field-only
single-reversal extraction yields different values (1 for ai_pd and
ai_ad). -/
theorem pinned_vector_6D28808 :
    (lookupFlag "ai_pd" (decodeHexToFlags "6D28808".data (some 2) "cam") =
        some (some ((specFieldValue 7 (hexToNat "6D28808".data) 17 1 : ℕ) : ℤ)) ∧
      lookupFlag "ai_fd" (decodeHexToFlags "6D28808".data (some 2) "cam") =
        some (some ((specFieldValue 7 (hexToNat "6D28808".data) 18 1 : ℕ) : ℤ)) ∧
      lookupFlag "ai_vd" (decodeHexToFlags "6D28808".data (some 2) "cam") =
        some (some ((specFieldValue 7 (hexToNat "6D28808".data) 19 1 : ℕ) : ℤ)) ∧
      lookupFlag "ai_ad" (decodeHexToFlags "6D28808".data (some 2) "cam") =
        some (some ((specFieldValue 7 (hexToNat "6D28808".data) 20 1 : ℕ) : ℤ))) ∧
    (specFieldValue 7 (hexToNat "6D28808".data) 17 1 = 0 ∧
      specFieldValue 7 (hexToNat "6D28808".data) 18 1 = 0 ∧
      specFieldValue 7 (hexToNat "6D28808".data) 19 1 = 0 ∧
      specFieldValue 7 (hexToNat "6D28808".data) 20 1 = 0) ∧
    (∀ i, i < 28 → (revBits 28 (hexToNat "6D28808".data)).testBit i =
        (hexToNat "6D28808".data).testBit (27 - i)) ∧
    (specNoReversalValue (hexToNat "6D28808".data) 17 1 = 1 ∧
      specSingleReversalValue (hexToNat "6D28808".data) 17 1 = 1 ∧
      specNoReversalValue (hexToNat "6D28808".data) 20 1 = 1 ∧
      specSingleReversalValue (hexToNat "6D28808".data) 20 1 = 1) := by decide

/-- Claim C3: `parseFileName` returns `null` exactly when the first
underscore token of the stem does not start with "Rec" or is not 6
characters long, or the token count is neither 6 nor 9; every other
input (unknown version digits and length mismatches included) decodes
successfully. -/
theorem parse_fails_iff_structural (fileName : List Char) :
    (parseFileName fileName).1 = none ↔
      ¬ (List.isPrefixOf ['R', 'e', 'c'] ((nameTokens fileName).headD []) ∧
          ((nameTokens fileName).headD []).length = 6) ∨
        ((nameTokens fileName).length ≠ 6 ∧ (nameTokens fileName).length ≠ 9) := by
  unfold parseFileName
  by_cases h1 : List.isPrefixOf ['R', 'e', 'c'] ((nameTokens fileName).headD []) ∧
      ((nameTokens fileName).headD []).length = 6
  · rw [if_neg (not_not_intro h1)]
    rcases htok : tokenizeName (nameTokens fileName) with _ | tk
    · have hlen := (tokenizeName_eq_none_iff (nameTokens fileName)).mp htok
      exact iff_of_true rfl (Or.inr hlen)
    · obtain ⟨devType, sd, st, et, hx, fs⟩ := tk
      have hlen : ¬ ((nameTokens fileName).length ≠ 6 ∧ (nameTokens fileName).length ≠ 9) := by
        intro hc
        have h0 := (tokenizeName_eq_none_iff (nameTokens fileName)).mpr hc
        rw [htok] at h0
        exact Option.noConfusion h0
      exact iff_of_false (fun hc => Option.noConfusion hc)
        (fun hc => hc.elim (fun hna => hna h1) hlen)
  · rw [if_pos h1]
    exact iff_of_true rfl (Or.inl h1)

/-- Claim C3 witness evaluation: the malformed name "randomfile.mp4"
is rejected through the structural condition. -/
theorem parse_fails_iff_structural_witness :
    (parseFileName "randomfile.mp4".data).1 = none :=
  (parse_fails_iff_structural "randomfile.mp4".data).mpr (Or.inl (by decide))

/-- Claim C4: an unregistered `(family, version)` pair never fails: the
resolver falls back to the numerically highest registered version of
the family (9 for cam, 2 for hub) with the warning flag set, for every
unregistered version whatsoever. -/
theorem version_fallback (devType : String) (version : JsNum)
    (h : FLAGS_MAPPING devType version = none) :
    (devType = "cam" →
      resolveVersion devType version = (some 9, true) ∧
      (9 : ℤ) ∈ versionKeys devType ∧ ∀ k ∈ versionKeys devType, k ≤ 9) ∧
    (devType = "hub" →
      resolveVersion devType version = (some 2, true) ∧
      (2 : ℤ) ∈ versionKeys devType ∧ ∀ k ∈ versionKeys devType, k ≤ 2) := by
  constructor <;> intro hd <;> subst hd <;>
    exact ⟨by rw [resolveVersion, h]; rfl, by decide, by decide⟩

/-- Claim C4 witness: version 99 is unregistered for cam and resolves to
version 9 with a warning. -/
theorem version_fallback_witness :
    FLAGS_MAPPING "cam" (some 99) = none ∧
    resolveVersion "cam" (some 99) = (some 9, true) :=
  ⟨by decide, ((version_fallback "cam" (some 99) (by decide)).1 rfl).1⟩

/-- Claim C5: the classifier appends person, vehicle, animal, motion, package
in that fixed order according to the truthiness of ai_pd, ai_vd, ai_ad,
is_motion_record, package_event (missing keys are falsy), with motion
as the sole fallback class; in particular ai_pd = ai_vd = 1 yields
exactly [person, vehicle] and an all-zero mapping yields [motion]. -/
theorem classifier_fixed_order :
    (∀ flagValues : List (String × JsNum),
      detectionClassesOf flagValues =
        (let detectionClasses :=
          (if jsTruthy (lookupFlag "ai_pd" flagValues) then ["person"] else []) ++
          (if jsTruthy (lookupFlag "ai_vd" flagValues) then ["vehicle"] else []) ++
          (if jsTruthy (lookupFlag "ai_ad" flagValues) then ["animal"] else []) ++
          (if jsTruthy (lookupFlag "is_motion_record" flagValues) then ["motion"] else []) ++
          (if jsTruthy (lookupFlag "package_event" flagValues) then ["package"] else []);
        if detectionClasses.isEmpty then ["motion"] else detectionClasses)) ∧
    detectionClassesOf [("ai_pd", some 1), ("ai_vd", some 1)] = ["person", "vehicle"] ∧
    detectionClassesOf [("ai_pd", some 0), ("ai_fd", some 0), ("ai_vd", some 0),
      ("ai_ad", some 0), ("is_motion_record", some 0), ("package_event", some 0)] =
      ["motion"] :=
  ⟨fun _ => rfl, by decide, by decide⟩

/-- Claim C6: for every payload string and every registered schema, the
decoded mapping has exactly the schema field names as keys (in order)
and every value v satisfies 0 ≤ v < 2 ^ bit_width of its field. -/
theorem decoded_fields_well_formed (hexValue : List Char) (devType : String)
    (version : JsNum) (flags : List (String × ℕ × ℕ))
    (h : FLAGS_MAPPING devType version = some flags) :
    List.Forall₂ (fun e f => e.1 = f.1 ∧ ∃ v : ℤ, e.2 = some v ∧ 0 ≤ v ∧ v < 2 ^ f.2.2)
      (decodeHexToFlags hexValue version devType) flags := by
  have htab := registered_tables devType version flags h
  simp only [decodeHexToFlags, h]
  apply decode_forall2
  rcases htab with rfl | rfl | rfl | rfl
  · exact goodField_cam_v2 _
  · exact goodField_hub_v0 _
  · exact goodField_hub_v1 _
  · exact goodField_hub_v2 _

/-- Claim C6 witness: the invariant instantiated at the pinned camera payload
and the registered pair (cam, 2). -/
theorem decoded_fields_well_formed_witness :
    FLAGS_MAPPING "cam" (some 2) = some FLAGS_CAM_V2 ∧
    List.Forall₂ (fun e f => e.1 = f.1 ∧ ∃ v : ℤ, e.2 = some v ∧ 0 ≤ v ∧ v < 2 ^ f.2.2)
      (decodeHexToFlags "6D28808".data (some 2) "cam") FLAGS_CAM_V2 :=
  ⟨by decide,
    decoded_fields_well_formed "6D28808".data "cam" (some 2) FLAGS_CAM_V2 (by decide)⟩

/-- Claim C7: a 6-token stem is a camera recording with the hex payload at
token index 4 and the file size at index 5; a 9-token stem is a hub
recording with the hex payload at index 7 and the file size at 8. -/
theorem family_token_positions (fileName : List Char) :
    ((nameTokens fileName).length = 6 →
      tokenizeName (nameTokens fileName) =
        some ("cam", (nameTokens fileName).getD 1 [], (nameTokens fileName).getD 2 [],
          (nameTokens fileName).getD 3 [], (nameTokens fileName).getD 4 [],
          (nameTokens fileName).getD 5 [])) ∧
    ((nameTokens fileName).length = 9 →
      tokenizeName (nameTokens fileName) =
        some ("hub", (nameTokens fileName).getD 1 [], (nameTokens fileName).getD 2 [],
          (nameTokens fileName).getD 3 [], (nameTokens fileName).getD 7 [],
          (nameTokens fileName).getD 8 [])) := by
  constructor <;> intro h <;> simp [tokenizeName, h]

/-- Claim C7 witness: the two example filenames of the source comments. -/
theorem family_token_positions_witness :
    tokenizeName (nameTokens "Mp4Record/2020-12-22/RecM01_20201222_075939_080140_6D28808_1A468F9.mp4".data) =
      some ("cam", "20201222".data, "075939".data, "080140".data,
        "6D28808".data, "1A468F9".data) ∧
    tokenizeName (nameTokens "RecM02_DST20240827_090302_090334_0_800_800_033C820000_61B6F0.mp4".data) =
      some ("hub", "DST20240827".data, "090302".data, "090334".data,
        "033C820000".data, "61B6F0".data) := by
  constructor
  · have h := (family_token_positions
      "Mp4Record/2020-12-22/RecM01_20201222_075939_080140_6D28808_1A468F9.mp4".data).1 (by decide)
    rw [h]
    decide
  · have h := (family_token_positions
      "RecM02_DST20240827_090302_090334_0_800_800_033C820000_61B6F0.mp4".data).2 (by decide)
    rw [h]
    decide

/-- Claim C8: the round-trip isolation property fails on the code.  The
synthetic hub v2 payload "0000000004" sets exactly the bits of
`package_event` (offset 37, width 1) to the field maximum per the
reference computation (1 at that field, 0 at every other field), but
the decoder returns 0 for `package_event` because of the 32-bit shift
truncation. -/
theorem round_trip_leak_bit37 :
    lookupFlag "package_event" (decodeHexToFlags "0000000004".data (some 2) "hub") =
      some (some 0) ∧
    specFieldValue 10 (hexToNat "0000000004".data) 37 1 = 1 ∧
    (∀ f ∈ FLAGS_HUB_V2, f.1 ≠ "package_event" →
      specFieldValue 10 (hexToNat "0000000004".data) f.2.1 f.2.2 = 0) := by decide

/-- Claim C9: the too-short-payload clause fails on the code.  For the
one-character payload "1" under the hub v2 schema, the field
`package_delivered` (offset 35) lies entirely past the 4 available
bits, so the spec reference value is 0, yet the decoder returns 1
(`1 << 35` is `8`, which hits bit 3 of the 4-bit reversed payload);
the decoder stays total (it still produces every schema key). -/
theorem short_payload_bit35 :
    lookupFlag "package_delivered" (decodeHexToFlags "1".data (some 2) "hub") =
      some (some 1) ∧
    specFieldValue 1 (hexToNat "1".data) 35 1 = 0 ∧
    (decodeHexToFlags "1".data (some 2) "hub").map Prod.fst =
      FLAGS_HUB_V2.map (fun f => f.1) := by decide

/-- Claim C10: an input without any '.' character always fails with the
`null` (UnrecognizedFormat) result, because the stem collapses to the
empty string whose first token cannot start with "Rec". -/
theorem no_dot_always_fails (fileName : List Char) (h : '.' ∉ fileName) :
    (parseFileName fileName).1 = none := by
  have hstem := stemName_no_dot fileName h
  simp [parseFileName, nameTokens, hstem, splitOnChar, List.isPrefixOf]

/-- Claim C10 witness: a dotless name whose underscore structure is otherwise
a valid 6-token camera recording still fails. -/
theorem no_dot_always_fails_witness :
    (parseFileName "RecM01_20201222_075939_080140_6D28808_1A468F9".data).1 = none :=
  no_dot_always_fails "RecM01_20201222_075939_080140_6D28808_1A468F9".data (by decide)


end Reolink
